import Mathlib

/-!
Shallow embedding of the bevy-audio-v2 graph-mutation coordination protocol:
the Entity-to-Node map maintained by the NodePlugin observers (src/node.rs),
the engine checkout/checkin systems (src/lib.rs), and the Beep example node
(examples/beep_test.rs).  The firewheel audio-engine boundary (graph edits,
activate/deactivate/update) is an external dependency and is modelled from
the spec's external-interface section.
-/

namespace BevyAudio

/-- firewheel NodeID: opaque handle, modelled as a natural number. -/
abbrev NodeID := Nat

/-- bevy Entity: opaque identifier, modelled as a natural number. -/
abbrev Entity := Nat

/-- Modelled from the spec: the firewheel audio graph (external collaborator).
Nodes are (id, numInputs, numOutputs); edges are (srcNode, srcPort, dstNode,
dstPort); `graphOutId` is the graph output node; `nextId` is the fresh-handle
counter backing `add_node`. -/
structure Graph where
  nodes : List (NodeID × Nat × Nat)
  edges : List (NodeID × Nat × NodeID × Nat)
  graphOutId : NodeID
  nextId : NodeID
deriving DecidableEq

/-- The identifiers of the nodes currently in the graph. -/
def Graph.nodeIds (g : Graph) : List NodeID :=
  g.nodes.map Prod.fst

/-- Look up a node entry by identifier (first match). -/
def Graph.findNode (g : Graph) (id : NodeID) : Option (NodeID × Nat × Nat) :=
  g.nodes.find? (fun p => decide (p.1 = id))

/-- Modelled from the spec: `Graph.add_node(min_in, min_out, processor) -> NodeId`.
Inserts a fresh node and returns its identifier. -/
def Graph.addNode (g : Graph) (numInputs numOutputs : Nat) : NodeID × Graph :=
  (g.nextId,
   { nodes := g.nodes ++ [(g.nextId, numInputs, numOutputs)]
     edges := g.edges
     graphOutId := g.graphOutId
     nextId := g.nextId + 1 })

/-- The graph output node handle (`graph_out_node`). -/
def Graph.graphOutNode (g : Graph) : NodeID := g.graphOutId

/-- Modelled from the spec: `Graph.connect(src, src_port, dst, dst_port, allow_cycle)
-> Result<(), ConnectError>`; fails when a node is absent or a port is out of
arity. -/
def Graph.connect (g : Graph) (srcNode : NodeID) (srcPort : Nat) (dstNode : NodeID)
    (dstPort : Nat) (_allowCycle : Bool) : Except String Graph :=
  match g.findNode srcNode, g.findNode dstNode with
  | some s, some d =>
    if srcPort < s.2.2 ∧ dstPort < d.2.1 then
      Except.ok { g with edges := g.edges ++ [(srcNode, srcPort, dstNode, dstPort)] }
    else
      Except.error "ConnectError"
  | _, _ => Except.error "ConnectError"

/-- Modelled from the spec: `Graph.remove_node(NodeId) -> Result<(), NotFoundError>`;
removes the node and its incident edges, or fails when absent. -/
def Graph.removeNode (g : Graph) (id : NodeID) : Except String Graph :=
  if id ∈ g.nodeIds then
    Except.ok
      { g with
        nodes := g.nodes.filter (fun p => decide (p.1 ≠ id))
        edges := g.edges.filter (fun e => decide (e.1 ≠ id) && decide (e.2.2.1 ≠ id)) }
  else
    Except.error "NotFoundError"

/-- Modelled from the spec: the engine's initial topology holds just the graph
output node; the example connects to its ports 0 and 1, so it exposes two
input channels (stereo). -/
def initGraph : Graph :=
  { nodes := [(0, 2, 0)], edges := [], graphOutId := 0, nextId := 1 }

/-- A variant initial topology whose output node has a single input channel,
so that a second connection to port 1 violates port arity. -/
def monoOutGraph : Graph :=
  { nodes := [(0, 1, 0)], edges := [], graphOutId := 0, nextId := 1 }

/-- Model of `AtomicF32` (a Parameter Cell).  The scalar carrier is ℚ: the
synchronization path only stores and loads values, it performs no float
arithmetic.  Relaxed store/load in a single context is plain read/write. -/
structure AtomicF32 where
  value : ℚ
deriving DecidableEq

/-- `AtomicF32::new(v)`. -/
def AtomicF32.new (v : ℚ) : AtomicF32 := { value := v }

/-- `store(v, Ordering::Relaxed)`: non-blocking overwrite. -/
def AtomicF32.store (_c : AtomicF32) (v : ℚ) : AtomicF32 := { value := v }

/-- `load(Ordering::Relaxed)`: non-blocking read of the latest value. -/
def AtomicF32.load (c : AtomicF32) : ℚ := c.value

/-- The `Beep` bevy component: the source of truth for the parameters. -/
structure Beep where
  amplitude : ℚ
  frequency : ℚ
deriving DecidableEq

/-- `BeepNodeImpl`: the pair of shared Parameter Cells behind the Arc. -/
structure BeepNodeImpl where
  amplitude : AtomicF32
  frequency : AtomicF32
deriving DecidableEq

/-- `Beep::create_node`: builds the shared cells from the component, inserts
the `BeepNode` component on the entity (returned first), adds the node with
0 inputs / 1 output, and connects its output port 0 to the graph output
node's ports 0 and 1, unwrapping each `connect` result (`none` = panic). -/
def beepCreateNode (beep : Beep) (g : Graph) : Option (BeepNodeImpl × NodeID × Graph) :=
  let cells : BeepNodeImpl :=
    { amplitude := AtomicF32.new beep.amplitude, frequency := AtomicF32.new beep.frequency }
  let r := g.addNode 0 1
  ((r.2).connect r.1 0 (r.2).graphOutNode 0 false).toOption.bind (fun g2 =>
    (g2.connect r.1 0 g2.graphOutNode 1 false).toOption.bind (fun g3 =>
      some (cells, r.1, g3)))

/-- Body of the `on_change_beep` loop: store the component's amplitude and
frequency into the node's Parameter Cells. -/
def onChangeBeepStore (beep : Beep) (node : BeepNodeImpl) : BeepNodeImpl :=
  { amplitude := node.amplitude.store beep.amplitude
    frequency := node.frequency.store beep.frequency }

/-- The parameter loads performed at the top of `BeepNodeProcessor::process`
(frequency for the step, then amplitude).  The DSP math applied to the
loaded values is outside the core being verified. -/
def beepProcessorLoads (params : BeepNodeImpl) : ℚ × ℚ :=
  (params.frequency.load, params.amplitude.load)

/-- The `NodeIds<N>` resource's backing map (EntityHashMap), modelled as an
association list with unique keys. -/
abbrev NodeIdMap := List (Entity × NodeID)

/-- HashMap lookup. -/
def mapLookup (m : NodeIdMap) (e : Entity) : Option NodeID :=
  (m.find? (fun p => decide (p.1 = e))).map Prod.snd

/-- HashMap insert: replaces the value when the key is present, otherwise
adds a new entry. -/
def mapInsert (m : NodeIdMap) (e : Entity) (n : NodeID) : NodeIdMap :=
  if e ∈ m.map Prod.fst then
    m.map (fun p => if p.1 = e then (e, n) else p)
  else
    m ++ [(e, n)]

/-- HashMap remove (drops the entry for the key). -/
def mapRemove (m : NodeIdMap) (e : Entity) : NodeIdMap :=
  m.filter (fun p => decide (p.1 ≠ e))

/-- The `NodeComponent` trait surface used by the observers: `create_node`
returns the new node's identifier together with the edited graph (`none` =
a panic inside the callback), `remove_node` tears the node down (`none` =
panic). -/
structure NodeComponentImpl where
  createNode : Graph → Option (NodeID × Graph)
  removeNode : Graph → NodeID → Option Graph

/-- The provided default body of `NodeComponent::remove_node`:
`audio_graph.remove_node(node_id).unwrap()` (`none` = panic). -/
def defaultRemoveNode (g : Graph) (id : NodeID) : Option Graph :=
  (g.removeNode id).toOption

/-- The state the node observers act on: the `NodeIds<N>` resource and the
audio graph topology. -/
structure BridgeState where
  map : NodeIdMap
  graph : Graph
deriving DecidableEq

/-- The closure enqueued by `on_add_node`: run `N::create_node` and record
the returned identifier keyed by the entity. -/
def onAddNodeApply (impl : NodeComponentImpl) (e : Entity) (s : BridgeState) :
    Option BridgeState := do
  let r ← impl.createNode s.graph
  some { map := mapInsert s.map e r.1, graph := r.2 }

/-- The closure enqueued by `on_remove_node`: remove the map entry for the
entity, unwrapping the lookup (`none` = panic when absent), then run
`N::remove_node` with the recorded identifier. -/
def onRemoveNodeApply (impl : NodeComponentImpl) (e : Entity) (s : BridgeState) :
    Option BridgeState := do
  let nodeId ← mapLookup s.map e
  let g1 ← impl.removeNode s.graph nodeId
  some { map := mapRemove s.map e, graph := g1 }

/-- The `NodeComponent` instance of the `Beep` example: `create_node` as in
`Beep::create_node` (the cells go to the entity, the id and graph to the
observer), `remove_node` left at its default. -/
def beepImpl (beep : Beep) : NodeComponentImpl :=
  { createNode := fun g => (beepCreateNode beep g).map (fun r => (r.2.1, r.2.2))
    removeNode := defaultRemoveNode }

/-- The two signals the component system emits for a tracked component. -/
inductive Signal where
  | gained (e : Entity)
  | lost (e : Entity)
deriving DecidableEq

/-- Process one gained/lost signal through the corresponding observer. -/
def processSignal (impl : NodeComponentImpl) (s : BridgeState) : Signal → Option BridgeState
  | Signal.gained e => onAddNodeApply impl e s
  | Signal.lost e => onRemoveNodeApply impl e s

/-- Process a sequence of signals in emission order; a panic aborts the run. -/
def processSignals (impl : NodeComponentImpl) (s : BridgeState) :
    List Signal → Option BridgeState
  | [] => some s
  | sig :: rest => (processSignal impl s sig).bind (fun s1 => processSignals impl s1 rest)

/-- A signal sequence is well formed relative to the currently gained set:
no duplicate gained without an intervening lost, no lost without a prior
gained. -/
def wf : List Signal → List Entity → Bool
  | [], _ => true
  | Signal.gained e :: rest, cur => !(decide (e ∈ cur)) && wf rest (e :: cur)
  | Signal.lost e :: rest, cur => decide (e ∈ cur) && wf rest (cur.erase e)

/-- The currently gained entities after a signal sequence. -/
def gainedAfter : List Signal → List Entity → List Entity
  | [], cur => cur
  | Signal.gained e :: rest, cur => gainedAfter rest (e :: cur)
  | Signal.lost e :: rest, cur => gainedAfter rest (cur.erase e)

/-- The bridge state before any signal: empty map, initial topology. -/
def initBridgeState : BridgeState :=
  { map := [], graph := initGraph }

/-- Modelled from the spec: `DeviceError` from opening an audio device. -/
inductive DeviceError where
  | cannotOpen (device : String)
deriving DecidableEq

/-- Modelled from the spec: firewheel `InactiveCtx` — topology, no stream. -/
structure InactiveCtx where
  graph : Graph
deriving DecidableEq

/-- Modelled from the spec: firewheel `ActiveCtx` — topology plus a live
stream on `outDeviceName`.  `willDeactivate` and the message fields encode
what the engine-internal status drained by the next `update()` will report. -/
structure ActiveCtx where
  graph : Graph
  outDeviceName : String
  willDeactivate : Bool
  errorMsg : Option String
  graphError : Option String
deriving DecidableEq

/-- Modelled from the spec: `InactiveCtx::activate(device, start_immediately,
ctx)`; succeeds when the requested (or default) device opens, keeping the
topology. -/
def InactiveCtx.activate (openDevice : String → Bool) (defaultDevice : String)
    (cx : InactiveCtx) (device : Option String) (_startImmediately : Bool) :
    Except DeviceError ActiveCtx :=
  let name := device.getD defaultDevice
  if openDevice name then
    Except.ok
      { graph := cx.graph, outDeviceName := name, willDeactivate := false
        errorMsg := none, graphError := none }
  else
    Except.error (DeviceError.cannotOpen name)

/-- Modelled from the spec: `ActiveCtx::deactivate()` — always succeeds,
stops the stream, returns the topology intact. -/
def ActiveCtx.deactivate (cx : ActiveCtx) : InactiveCtx × Unit :=
  ({ graph := cx.graph }, ())

/-- Modelled from the spec: the result of `ActiveCtx::update()`. -/
inductive UpdateStatus where
  | ok (cx : ActiveCtx) (graphError : Option String)
  | deactivated (errorMsg : Option String)

/-- Modelled from the spec: `ActiveCtx::update()` drains the engine-internal
status: `Deactivated` when the stream has unrecoverably stopped, `Ok`
(optionally carrying a non-fatal graph error) otherwise. -/
def ActiveCtx.update (cx : ActiveCtx) : UpdateStatus :=
  if cx.willDeactivate then
    UpdateStatus.deactivated cx.errorMsg
  else
    UpdateStatus.ok cx cx.graphError

/-- The world state the lib.rs systems act on: the non-send resource slot
holding the `AudioEngine` (`none` = slot empty) and whether an `AppExit`
event is pending. -/
structure AudioWorld where
  engineSlot : Option ActiveCtx
  appExitPending : Bool
deriving DecidableEq

/-- Trace of engine operations a system performed, in order. -/
inductive EngineOp where
  | deactivateOp
  | updateOp
  | activateOp (device : Option String)
deriving DecidableEq

/-- `update_audio_engine` (runs in `Last` each frame): check the engine out
of its slot (`none` = panic on an empty slot); on pending `AppExit`
deactivate and return without re-storing; otherwise drain `update()`: on
`Ok` re-store the engine, on `Deactivated` log and drop it. -/
def updateAudioEngine (w : AudioWorld) : Option (AudioWorld × List EngineOp) := do
  let cx ← w.engineSlot
  if w.appExitPending then
    let _ := cx.deactivate
    some ({ w with engineSlot := none }, [EngineOp.deactivateOp])
  else
    match cx.update with
    | UpdateStatus.ok cx2 _graphError =>
      some ({ w with engineSlot := some cx2 }, [EngineOp.updateOp])
    | UpdateStatus.deactivated _errorMsg =>
      some ({ w with engineSlot := none }, [EngineOp.updateOp])

/-- `apply_audio_graph_command`: check the engine out of its slot (`none` =
panic on an empty slot), remember the output device, deactivate, run the
queued closure on the topology (`none` = the closure panicked), reactivate
on the same device unwrapping the result (`none` = panic), and re-store the
engine. -/
def applyAudioGraphCommand (openDevice : String → Bool) (defaultDevice : String)
    (w : AudioWorld) (apply : Graph → Option Graph) :
    Option (AudioWorld × List EngineOp) := do
  let cx ← w.engineSlot
  let outDevice := cx.outDeviceName
  let icx := (cx.deactivate).1
  let g2 ← apply icx.graph
  match InactiveCtx.activate openDevice defaultDevice { graph := g2 } (some outDevice) true with
  | Except.ok cx2 =>
    some ({ w with engineSlot := some cx2 },
      [EngineOp.deactivateOp, EngineOp.activateOp (some outDevice)])
  | Except.error _ => none

/-- The world state `AudioPlugin::finish` acts on: the builder slot holding
the `InactiveCtx` and the optional `OutputDevice` resource. -/
structure StartupWorld where
  builderSlot : Option InactiveCtx
  outputDevice : Option String
deriving DecidableEq

/-- `AudioPlugin::finish`: take the builder out of its slot (`none` = panic
when absent), activate on the configured output device unwrapping the
result (`none` = panic "Cannot start audio engine"), and store the engine. -/
def audioPluginFinish (openDevice : String → Bool) (defaultDevice : String)
    (w : StartupWorld) : Option AudioWorld := do
  let cx ← w.builderSlot
  match cx.activate openDevice defaultDevice w.outputDevice true with
  | Except.ok acx => some { engineSlot := some acx, appExitPending := false }
  | Except.error _ => none

/-- The slice of the app state the beep example's systems touch: the Beep
component, the shared cells held by the `BeepNode` component (absent until
`create_node` ran), the `NodeIds<Beep>` map, the topology, and a count of
graph commands enqueued via `update_audio_graph`. -/
structure BeepWorld where
  beep : Beep
  cells : Option BeepNodeImpl
  map : NodeIdMap
  graph : Graph
  queuedMutations : Nat
deriving DecidableEq

/-- The gained path for a Beep entity: `on_add_node` enqueues one graph
command which runs `Beep::create_node` and records the identifier. -/
def beepGainedStep (e : Entity) (w : BeepWorld) : Option BeepWorld :=
  match beepCreateNode w.beep w.graph with
  | none => none
  | some r =>
    some { w with cells := some r.1, map := mapInsert w.map e r.2.1, graph := r.2.2
                  queuedMutations := w.queuedMutations + 1 }

/-- The changed path: `on_change_beep` stores the component's fields into
the Parameter Cells; it touches neither the topology nor the command queue,
and does nothing when the entity has no `BeepNode` yet. -/
def beepChangedStep (w : BeepWorld) : BeepWorld :=
  match w.cells with
  | none => w
  | some c => { w with cells := some (onChangeBeepStore w.beep c) }

/-- A control-side change to the source-of-truth component (`toggle_beep`). -/
def setBeepAmplitude (w : BeepWorld) (v : ℚ) : BeepWorld :=
  { w with beep := { w.beep with amplitude := v } }

/-- The beep example's world at startup: amplitude 0, frequency 440, no
node yet, empty map, initial topology. -/
def initBeepWorld : BeepWorld :=
  { beep := { amplitude := 0, frequency := 440 }, cells := none, map := []
    graph := initGraph, queuedMutations := 0 }

/-- A device universe where only the device "default" can be opened. -/
def openOnlyDefault : String → Bool := fun d => d == "default"

/-- An active engine whose next `update()` reports `Deactivated` (e.g. the
output device was disconnected). -/
def deactivatingEngine : ActiveCtx :=
  { graph := initGraph, outDeviceName := "default", willDeactivate := true
    errorMsg := some "device disconnected", graphError := none }

/-- A healthy active engine on the default device over the initial graph. -/
def defaultEngine : ActiveCtx :=
  { graph := initGraph, outDeviceName := "default", willDeactivate := false
    errorMsg := none, graphError := none }

/-- A healthy active engine over the mono-output graph. -/
def monoEngine : ActiveCtx :=
  { graph := monoOutGraph, outDeviceName := "default", willDeactivate := false
    errorMsg := none, graphError := none }

/-- The bridge invariant tying the NodeIds map, the topology and the set of
currently gained entities together. -/
structure BridgeInv (s : BridgeState) (cur : List Entity) : Prop where
  keysNodup : (s.map.map Prod.fst).Nodup
  curNodup : cur.Nodup
  keysCur : ∀ e, e ∈ s.map.map Prod.fst ↔ e ∈ cur
  sizeEq : s.map.length = cur.length
  valsNodup : (s.map.map Prod.snd).Nodup
  valsPos : ∀ p ∈ s.map, 1 ≤ p.2
  idsLt : ∀ id ∈ s.graph.nodeIds, id < s.graph.nextId
  idsNodup : s.graph.nodeIds.Nodup
  outIdZero : s.graph.graphOutId = 0
  outNode : s.graph.findNode 0 = some (0, 2, 0)
  nodeSet : ∀ id, id ∈ s.graph.nodeIds ↔ id = 0 ∨ id ∈ s.map.map Prod.snd

/-- Inversion for a successful `connect`: only an edge is appended. -/
theorem connect_ok_spec {g g2 : Graph} {a pa b pb : NodeID} {c : Bool}
    (h : g.connect a pa b pb c = Except.ok g2) :
    g2.nodes = g.nodes ∧ g2.edges = g.edges ++ [(a, pa, b, pb)] ∧
    g2.graphOutId = g.graphOutId ∧ g2.nextId = g.nextId := by
  rcases hA : g.findNode a with _ | s <;> rcases hB : g.findNode b with _ | d <;>
    simp [Graph.connect, hA, hB] at h
  split at h
  · rw [Except.ok.injEq] at h
    subst h
    simp
  · cases h

/-- C8: Parameter Cell round-trip: writing a value and reading it back in the
same context with no intervening write returns that value; a read before any
write returns the initial value; in particular the processor's loads after
`on_change_beep` stored the component's fields return exactly those fields. -/
theorem paramcell_roundtrip (c : AtomicF32) (v v0 : ℚ) (beep : Beep) (node : BeepNodeImpl) :
    (c.store v).load = v ∧ (AtomicF32.new v0).load = v0 ∧
    beepProcessorLoads (onChangeBeepStore beep node) = (beep.frequency, beep.amplitude) :=
  ⟨rfl, rfl, rfl⟩

/-- C10: the default `NodeComponent::remove_node` unwraps the graph's removal
result: when the identifier names a node currently in the graph the call
succeeds (no panic); when it does not, the unwrap panics. -/
theorem default_remove_node_total (g : Graph) (id : NodeID) :
    (id ∈ g.nodeIds → (defaultRemoveNode g id).isSome = true) ∧
    (id ∉ g.nodeIds → defaultRemoveNode g id = none) := by
  constructor <;> intro h <;> simp [defaultRemoveNode, Graph.removeNode, h, Except.toOption]

/-- Witness for C10 at the initial graph: removing the present node 0
succeeds, removing the absent node 5 panics. -/
theorem default_remove_node_total_witness :
    (defaultRemoveNode initGraph 0).isSome = true ∧ defaultRemoveNode initGraph 5 = none :=
  ⟨(default_remove_node_total initGraph 0).1 (by decide),
   (default_remove_node_total initGraph 5).2 (by decide)⟩

/-- C3: processing a "lost" signal with no map entry for the entity panics
(the lookup is unwrapped), and with an entry the entry is removed and the
component's `remove_node` is invoked with the recorded identifier. -/
theorem on_remove_node_spec (impl : NodeComponentImpl) (s : BridgeState) (e : Entity) :
    (mapLookup s.map e = none → onRemoveNodeApply impl e s = none) ∧
    (∀ n, mapLookup s.map e = some n →
      onRemoveNodeApply impl e s =
        (impl.removeNode s.graph n).map
          (fun g1 => { map := mapRemove s.map e, graph := g1 })) := by
  constructor
  · intro h
    simp [onRemoveNodeApply, h]
  · intro n h
    simp [onRemoveNodeApply, h]
    cases impl.removeNode s.graph n <;> simp

/-- Witness for C3: a lost signal for entity 5 with an empty map panics; a
lost signal for entity 7 mapped to node 0 removes the entry and the node. -/
theorem on_remove_node_spec_witness :
    onRemoveNodeApply (beepImpl { amplitude := 0, frequency := 440 }) 5 initBridgeState = none ∧
    onRemoveNodeApply (beepImpl { amplitude := 0, frequency := 440 }) 7
        { map := [(7, 0)], graph := initGraph } =
      some { map := [], graph := { nodes := [], edges := [], graphOutId := 0, nextId := 1 } } :=
  ⟨(on_remove_node_spec (beepImpl { amplitude := 0, frequency := 440 }) initBridgeState 5).1
      (by decide),
   ((on_remove_node_spec (beepImpl { amplitude := 0, frequency := 440 })
        { map := [(7, 0)], graph := initGraph } 7).2 0 (by decide)).trans (by decide)⟩

/-- C9: when an `AppExit` event is pending, `update_audio_engine` deactivates
the engine, never calls `update()`, and does not put the handle back: the
slot is left empty and the only engine operation performed is the
deactivation. -/
theorem update_audio_engine_app_exit (w : AudioWorld) (cx : ActiveCtx)
    (hslot : w.engineSlot = some cx) (hexit : w.appExitPending = true) :
    updateAudioEngine w = some ({ w with engineSlot := none }, [EngineOp.deactivateOp]) := by
  simp [updateAudioEngine, hslot, hexit]

/-- Witness for C9 at a concrete world holding the default engine. -/
theorem update_audio_engine_app_exit_witness :
    updateAudioEngine { engineSlot := some defaultEngine, appExitPending := true } =
      some ({ engineSlot := none, appExitPending := true }, [EngineOp.deactivateOp]) :=
  update_audio_engine_app_exit
    { engineSlot := some defaultEngine, appExitPending := true } defaultEngine rfl rfl

/-- C2: `apply_audio_graph_command` checks the engine out of its (non-empty)
slot, deactivates, applies the edits to the topology, reactivates on the same
output device, and refills the slot: after every successful application the
slot holds an engine on the original device with the edited topology. -/
theorem apply_audio_graph_command_checkin (openDevice : String → Bool) (d : String)
    (w : AudioWorld) (cx : ActiveCtx) (f : Graph → Option Graph) (g2 : Graph)
    (hslot : w.engineSlot = some cx) (happly : f cx.graph = some g2)
    (hopen : openDevice cx.outDeviceName = true) :
    ∃ cx2 : ActiveCtx,
      applyAudioGraphCommand openDevice d w f =
        some ({ w with engineSlot := some cx2 },
          [EngineOp.deactivateOp, EngineOp.activateOp (some cx.outDeviceName)]) ∧
      cx2.outDeviceName = cx.outDeviceName ∧ cx2.graph = g2 := by
  refine ⟨{ graph := g2, outDeviceName := cx.outDeviceName, willDeactivate := false
            errorMsg := none, graphError := none }, ?_, rfl, rfl⟩
  simp [applyAudioGraphCommand, hslot, ActiveCtx.deactivate, happly,
    InactiveCtx.activate, hopen]

/-- Witness for C2: an identity edit over the default engine round-trips the
device and refills the slot. -/
theorem apply_audio_graph_command_checkin_witness :
    ∃ cx2 : ActiveCtx,
      applyAudioGraphCommand (fun _ => true) "default"
          { engineSlot := some defaultEngine, appExitPending := false } (fun g => some g) =
        some ({ engineSlot := some cx2, appExitPending := false },
          [EngineOp.deactivateOp, EngineOp.activateOp (some "default")]) ∧
      cx2.outDeviceName = "default" ∧ cx2.graph = initGraph :=
  apply_audio_graph_command_checkin (fun _ => true) "default"
    { engineSlot := some defaultEngine, appExitPending := false } defaultEngine
    (fun g => some g) initGraph rfl rfl rfl

/-- C4 counterexample: with output device "missing" in a universe where only
"default" opens, the library's `activate` does return `DeviceError`, but the
wrapper (`AudioPlugin::finish`) unwraps it with `expect` and panics: the
startup step dies instead of leaving the caller able to retry, so the
failure is fatal to the control scheduler, contrary to the claim. -/
theorem activation_failure_fatal_cex :
    InactiveCtx.activate openOnlyDefault "default" { graph := initGraph } (some "missing") true
      = Except.error (DeviceError.cannotOpen "missing") ∧
    audioPluginFinish openOnlyDefault "default"
      { builderSlot := some { graph := initGraph }, outputDevice := some "missing" } = none := by
  constructor <;> rfl

/-- C4 amended: when the requested output device cannot be opened, `activate`
itself fails with `DeviceError`, but both wrappers unwrap the result with
`expect` and panic — `AudioPlugin::finish` ("Cannot start audio engine") and
`apply_audio_graph_command` ("Cannot restart audio engine") — so activation
failure is fatal to the control scheduler and no engine handle is stored. -/
theorem activation_failure_fatal (openDevice : String → Bool) (defaultDevice : String)
    (w : StartupWorld) (icx : InactiveCtx) (hslot : w.builderSlot = some icx)
    (hopen : openDevice ((w.outputDevice).getD defaultDevice) = false) :
    audioPluginFinish openDevice defaultDevice w = none ∧
    ∀ (w2 : AudioWorld) (cx : ActiveCtx) (f : Graph → Option Graph) (g2 : Graph),
      w2.engineSlot = some cx → openDevice cx.outDeviceName = false → f cx.graph = some g2 →
      applyAudioGraphCommand openDevice defaultDevice w2 f = none := by
  constructor
  · simp [audioPluginFinish, hslot, InactiveCtx.activate, hopen]
  · intro w2 cx f g2 hslot2 hopen2 happly
    simp [applyAudioGraphCommand, hslot2, ActiveCtx.deactivate, happly,
      InactiveCtx.activate, hopen2]

/-- Witness for the amended C4 at the "missing" device. -/
theorem activation_failure_fatal_witness :
    audioPluginFinish openOnlyDefault "default"
        { builderSlot := some { graph := initGraph }, outputDevice := some "missing" } = none ∧
    applyAudioGraphCommand openOnlyDefault "default"
        { engineSlot := some { defaultEngine with outDeviceName := "missing" },
          appExitPending := false } (fun g => some g) = none :=
  ⟨(activation_failure_fatal openOnlyDefault "default"
      { builderSlot := some { graph := initGraph }, outputDevice := some "missing" }
      { graph := initGraph } rfl rfl).1,
   (activation_failure_fatal openOnlyDefault "default"
      { builderSlot := some { graph := initGraph }, outputDevice := some "missing" }
      { graph := initGraph } rfl rfl).2
      { engineSlot := some { defaultEngine with outDeviceName := "missing" },
        appExitPending := false }
      { defaultEngine with outDeviceName := "missing" } (fun g => some g) initGraph
      rfl rfl rfl⟩

/-- C5 counterexample: when `update()` reports `Deactivated`, the wrapper
drops the engine handle without re-storing it, and the very next engine-update
step panics on the empty slot ("Audio engine incorrectly set up"): the
condition is not non-fatal to the control scheduler and no reactivation can
be attempted, contrary to the claim. -/
theorem update_deactivated_fatal_cex :
    updateAudioEngine { engineSlot := some deactivatingEngine, appExitPending := false } =
      some ({ engineSlot := none, appExitPending := false }, [EngineOp.updateOp]) ∧
    updateAudioEngine { engineSlot := none, appExitPending := false } = none := by
  constructor <;> rfl

/-- C5 amended: while `Active` with no pending exit, if `update()` returns
`Ok` the engine handle is put back in storage (any graph error only being
reported); if it returns `Deactivated` the handle is dropped, the storage
slot is left empty, and the next engine-update step panics on the empty
slot — there is no reactivation path. -/
theorem update_audio_engine_branches (w : AudioWorld) (cx : ActiveCtx)
    (hslot : w.engineSlot = some cx) (hexit : w.appExitPending = false) :
    (cx.willDeactivate = false →
      updateAudioEngine w = some ({ w with engineSlot := some cx }, [EngineOp.updateOp])) ∧
    (cx.willDeactivate = true →
      updateAudioEngine w = some ({ w with engineSlot := none }, [EngineOp.updateOp]) ∧
      updateAudioEngine { w with engineSlot := none } = none) := by
  constructor
  · intro h
    simp [updateAudioEngine, hslot, hexit, ActiveCtx.update, h]
  · intro h
    constructor
    · simp [updateAudioEngine, hslot, hexit, ActiveCtx.update, h]
    · simp [updateAudioEngine]

/-- Witness for the amended C5 on a healthy engine and on a deactivating
engine. -/
theorem update_audio_engine_branches_witness :
    updateAudioEngine { engineSlot := some defaultEngine, appExitPending := false } =
      some ({ engineSlot := some defaultEngine, appExitPending := false },
        [EngineOp.updateOp]) ∧
    updateAudioEngine { engineSlot := some deactivatingEngine, appExitPending := false } =
      some ({ engineSlot := none, appExitPending := false }, [EngineOp.updateOp]) ∧
    updateAudioEngine { engineSlot := none, appExitPending := false } = none :=
  ⟨(update_audio_engine_branches
      { engineSlot := some defaultEngine, appExitPending := false } defaultEngine rfl rfl).1
      rfl,
   ((update_audio_engine_branches
      { engineSlot := some deactivatingEngine, appExitPending := false } deactivatingEngine
      rfl rfl).2 rfl).1,
   ((update_audio_engine_branches
      { engineSlot := some deactivatingEngine, appExitPending := false } deactivatingEngine
      rfl rfl).2 rfl).2⟩

/-- C6 counterexample: over a topology whose output node has a single input
channel, the second `connect` in `Beep::create_node` violates port arity; the
code unwraps it and panics, so the whole graph command dies (`none`) instead
of surfacing the failure to the initiating caller — and at the panic point
the freshly added node 1 sits in the topology with only its first connection,
an orphaned half-connected node. -/
theorem connect_failure_panics_cex :
    beepCreateNode { amplitude := 0, frequency := 440 } monoOutGraph = none ∧
    (monoOutGraph.addNode 0 1).2.connect 1 0 0 0 false =
      Except.ok
        { nodes := [(0, 1, 0), (1, 0, 1)], edges := [(1, 0, 0, 0)]
          graphOutId := 0, nextId := 2 } ∧
    applyAudioGraphCommand (fun _ => true) "default"
        { engineSlot := some monoEngine, appExitPending := false }
        (fun g => (beepCreateNode { amplitude := 0, frequency := 440 } g).map
          (fun r => r.2.2)) = none := by
  refine ⟨by rfl, by rfl, by rfl⟩

/-- C6 amended: when the first `connect` of `Beep::create_node` succeeds and
the second fails, the unwrap panics: `create_node` (and with it the whole
`apply_audio_graph_command` run) aborts instead of returning the failure,
while the topology reached at the panic point still holds the freshly added
node with only its first connection — an orphaned half-connected node. -/
theorem connect_failure_aborts_command (beep : Beep) (g g2 : Graph)
    (h1 : (g.addNode 0 1).2.connect (g.addNode 0 1).1 0 (g.addNode 0 1).2.graphOutNode 0 false
      = Except.ok g2)
    (h2 : g2.connect (g.addNode 0 1).1 0 g2.graphOutNode 1 false = Except.error "ConnectError") :
    beepCreateNode beep g = none ∧
    (g.addNode 0 1).1 ∈ g2.nodeIds ∧
    ((g.addNode 0 1).1, 0, g.graphOutId, 0) ∈ g2.edges ∧
    ∀ (openDevice : String → Bool) (d : String) (w : AudioWorld) (cx : ActiveCtx),
      w.engineSlot = some cx → cx.graph = g →
      applyAudioGraphCommand openDevice d w
        (fun gr => (beepCreateNode beep gr).map (fun r => r.2.2)) = none := by
  have hnone : beepCreateNode beep g = none := by
    simp [beepCreateNode, h1, h2, Except.toOption]
  obtain ⟨hn, he, -, -⟩ := connect_ok_spec h1
  refine ⟨hnone, ?_, ?_, ?_⟩
  · simp [Graph.nodeIds, hn, Graph.addNode]
  · simp [he, Graph.addNode, Graph.graphOutNode]
  · intro openDevice d w cx hslot hg
    simp [applyAudioGraphCommand, hslot, ActiveCtx.deactivate, hg, hnone]

/-- Witness for the amended C6 over the mono-output topology. -/
theorem connect_failure_aborts_command_witness :
    beepCreateNode { amplitude := 0, frequency := 440 } monoOutGraph = none ∧
    (1 : NodeID) ∈ Graph.nodeIds
      { nodes := [(0, 1, 0), (1, 0, 1)], edges := [(1, 0, 0, 0)]
        graphOutId := 0, nextId := 2 } ∧
    ((1 : NodeID), 0, (0 : NodeID), 0) ∈
      ({ nodes := [(0, 1, 0), (1, 0, 1)], edges := [(1, 0, 0, 0)]
         graphOutId := 0, nextId := 2 } : Graph).edges ∧
    applyAudioGraphCommand (fun _ => true) "default"
        { engineSlot := some monoEngine, appExitPending := false }
        (fun gr => (beepCreateNode { amplitude := 0, frequency := 440 } gr).map
          (fun r => r.2.2)) = none := by
  obtain ⟨a, b, c, d⟩ := connect_failure_aborts_command { amplitude := 0, frequency := 440 }
    monoOutGraph
    { nodes := [(0, 1, 0), (1, 0, 1)], edges := [(1, 0, 0, 0)], graphOutId := 0, nextId := 2 }
    (by rfl) (by rfl)
  exact ⟨a, b, c, d (fun _ => true) "default"
    { engineSlot := some monoEngine, appExitPending := false } monoEngine rfl rfl⟩

/-- C7: an entity gaining `Beep` with amplitude 0 and frequency 440 adds
exactly one node whose output port 0 is connected to the graph output node's
ports 0 and 1 (and nothing else), and the map gains the entry for the
entity; a later amplitude change to 1.0 only stores into the amplitude and
frequency Parameter Cells — topology, map and command queue are untouched
and the node count is unchanged. -/
theorem beep_gain_then_change (e : Entity) :
    ∃ w1 : BeepWorld,
      beepGainedStep e initBeepWorld = some w1 ∧
      w1.graph.nodes.length = initBeepWorld.graph.nodes.length + 1 ∧
      w1.graph.edges = [(1, 0, initGraph.graphOutId, 0), (1, 0, initGraph.graphOutId, 1)] ∧
      w1.map = [(e, 1)] ∧ mapLookup w1.map e = some 1 ∧
      (beepChangedStep (setBeepAmplitude w1 1)).cells.map beepProcessorLoads
        = some (440, 1) ∧
      (beepChangedStep (setBeepAmplitude w1 1)).graph = w1.graph ∧
      (beepChangedStep (setBeepAmplitude w1 1)).map = w1.map ∧
      (beepChangedStep (setBeepAmplitude w1 1)).queuedMutations = w1.queuedMutations := by
  refine ⟨_, rfl, ?_, ?_, ?_, ?_, ?_, ?_, ?_, ?_⟩ <;>
    simp [beepGainedStep, beepCreateNode, initBeepWorld, initGraph, Graph.addNode,
      Graph.connect, Graph.findNode, Graph.graphOutNode, mapInsert, mapLookup,
      beepChangedStep, setBeepAmplitude, onChangeBeepStore, AtomicF32.new,
      AtomicF32.store, AtomicF32.load, beepProcessorLoads]

theorem connect_ok_of (g : Graph) (a : NodeID) (pa : Nat) (b : NodeID) (pb : Nat) (c : Bool)
    (sa sb : NodeID × Nat × Nat)
    (ha : g.findNode a = some sa) (hb : g.findNode b = some sb)
    (hpa : pa < sa.2.2) (hpb : pb < sb.2.1) :
    g.connect a pa b pb c = Except.ok { g with edges := g.edges ++ [(a, pa, b, pb)] } := by
  simp only [Graph.connect, ha, hb]
  simp [hpa, hpb]

theorem find?_append_of_some {α : Type} (p : α → Bool) (l1 l2 : List α) (a : α)
    (h : l1.find? p = some a) : (l1 ++ l2).find? p = some a := by
  rw [List.find?_append, h]
  rfl

theorem beepCreateNode_eval (beep : Beep) (g : Graph)
    (hid : ∀ id ∈ g.nodeIds, id < g.nextId)
    (hout0 : g.graphOutId = 0)
    (hout : g.findNode 0 = some (0, 2, 0)) :
    beepCreateNode beep g = some
      ({ amplitude := AtomicF32.new beep.amplitude
         frequency := AtomicF32.new beep.frequency },
       g.nextId,
       { nodes := g.nodes ++ [(g.nextId, 0, 1)]
         edges := g.edges ++ [(g.nextId, 0, 0, 0), (g.nextId, 0, 0, 1)]
         graphOutId := 0, nextId := g.nextId + 1 }) := by
  have hlist_id : (g.nodes ++ [(g.nextId, 0, 1)]).find? (fun p => decide (p.1 = g.nextId))
      = some (g.nextId, 0, 1) := by
    rw [List.find?_append]
    have h1 : g.nodes.find? (fun p => decide (p.1 = g.nextId)) = none := by
      rw [List.find?_eq_none]
      intro p hp
      simp only [decide_eq_true_eq]
      exact Nat.ne_of_lt (hid p.1 (List.mem_map.mpr ⟨p, hp, rfl⟩))
    rw [h1]
    simp [List.find?]
  have hlist_out : (g.nodes ++ [(g.nextId, 0, 1)]).find? (fun p => decide (p.1 = 0))
      = some (0, 2, 0) :=
    find?_append_of_some _ _ _ _ hout
  have hc1 : Graph.connect
      { nodes := g.nodes ++ [(g.nextId, 0, 1)], edges := g.edges
        graphOutId := 0, nextId := g.nextId + 1 } g.nextId 0 0 0 false
      = Except.ok
        { nodes := g.nodes ++ [(g.nextId, 0, 1)], edges := g.edges ++ [(g.nextId, 0, 0, 0)]
          graphOutId := 0, nextId := g.nextId + 1 } :=
    connect_ok_of _ _ _ _ _ _ (g.nextId, 0, 1) (0, 2, 0) hlist_id hlist_out
      (by norm_num) (by norm_num)
  have hc2 : Graph.connect
      { nodes := g.nodes ++ [(g.nextId, 0, 1)], edges := g.edges ++ [(g.nextId, 0, 0, 0)]
        graphOutId := 0, nextId := g.nextId + 1 } g.nextId 0 0 1 false
      = Except.ok
        { nodes := g.nodes ++ [(g.nextId, 0, 1)]
          edges := (g.edges ++ [(g.nextId, 0, 0, 0)]) ++ [(g.nextId, 0, 0, 1)]
          graphOutId := 0, nextId := g.nextId + 1 } :=
    connect_ok_of _ _ _ _ _ _ (g.nextId, 0, 1) (0, 2, 0) hlist_id hlist_out
      (by norm_num) (by norm_num)
  simp only [beepCreateNode, Graph.addNode, Graph.graphOutNode, hout0]
  rw [hc1]
  simp only [Except.toOption, Option.bind]
  rw [hc2]
  simp only [Except.toOption, Option.bind, Option.some.injEq]
  simp [List.append_assoc]

theorem mapInsert_of_not_mem (m : NodeIdMap) (e : Entity) (n : NodeID)
    (h : e ∉ m.map Prod.fst) : mapInsert m e n = m ++ [(e, n)] := by
  simp [mapInsert, h]

theorem mapRemove_of_not_mem (m : NodeIdMap) (e : Entity) (h : e ∉ m.map Prod.fst) :
    mapRemove m e = m := by
  apply List.filter_eq_self.mpr
  intro p hp
  simp only [decide_eq_true_eq]
  intro hpe
  exact h (List.mem_map.mpr ⟨p, hp, hpe⟩)

theorem mapRemove_cons_self (p : Entity × NodeID) (t : NodeIdMap) (e : Entity)
    (hp : p.1 = e) : mapRemove (p :: t) e = mapRemove t e := by
  simp [mapRemove, List.filter_cons, hp]

theorem mapRemove_cons_ne (p : Entity × NodeID) (t : NodeIdMap) (e : Entity)
    (hp : p.1 ≠ e) : mapRemove (p :: t) e = p :: mapRemove t e := by
  simp [mapRemove, List.filter_cons, hp]

theorem mapRemove_fst (m : NodeIdMap) (e : Entity) :
    (mapRemove m e).map Prod.fst = (m.map Prod.fst).filter (fun x => decide (x ≠ e)) := by
  induction m with
  | nil => rfl
  | cons p t ih =>
    by_cases hp : p.1 = e <;> simp [mapRemove, List.filter_cons, hp] <;>
      simpa [mapRemove] using ih

theorem mapRemove_length (m : NodeIdMap) (e : Entity)
    (hk : (m.map Prod.fst).Nodup) (he : e ∈ m.map Prod.fst) :
    (mapRemove m e).length + 1 = m.length := by
  induction m with
  | nil => simp at he
  | cons p t ih =>
    simp only [List.map_cons, List.nodup_cons] at hk
    simp only [List.map_cons, List.mem_cons] at he
    by_cases hp : p.1 = e
    · rw [mapRemove_cons_self p t e hp, mapRemove_of_not_mem t e (hp ▸ hk.1)]
      simp
    · rcases he with he1 | he2
      · exact absurd he1.symm hp
      · rw [mapRemove_cons_ne p t e hp]
        simp only [List.length_cons]
        have := ih hk.2 he2
        omega

theorem mapRemove_snd_mem (m : NodeIdMap) (e : Entity) (n x : NodeID)
    (hk : (m.map Prod.fst).Nodup) (hv : (m.map Prod.snd).Nodup) (hm : (e, n) ∈ m) :
    (x ∈ (mapRemove m e).map Prod.snd ↔ x ∈ m.map Prod.snd ∧ x ≠ n) := by
  induction m with
  | nil => simp at hm
  | cons p t ih =>
    simp only [List.map_cons, List.nodup_cons] at hk hv
    rcases List.mem_cons.mp hm with hm | hm
    · have hp : p = (e, n) := hm.symm
      subst hp
      have hkeys : e ∉ t.map Prod.fst := hk.1
      rw [mapRemove_cons_self (e, n) t e rfl, mapRemove_of_not_mem t e hkeys]
      simp only [List.map_cons, List.mem_cons]
      constructor
      · intro hx
        exact ⟨Or.inr hx, fun hxn => hv.1 (hxn ▸ hx)⟩
      · rintro ⟨hx | hx, hxn⟩
        · exact absurd hx hxn
        · exact hx
    · have hpe : p.1 ≠ e := by
        intro hcontra
        exact hk.1 (hcontra ▸ (List.mem_map.mpr ⟨(e, n), hm, rfl⟩))
      have hpn : p.2 ≠ n := by
        intro hcontra
        exact hv.1 (hcontra ▸ (List.mem_map.mpr ⟨(e, n), hm, rfl⟩))
      rw [mapRemove_cons_ne p t e hpe]
      simp only [List.map_cons, List.mem_cons]
      rw [ih hk.2 hv.2 hm]
      constructor
      · rintro (h | ⟨h1, h2⟩)
        · exact ⟨Or.inl h, h ▸ hpn⟩
        · exact ⟨Or.inr h1, h2⟩
      · rintro ⟨h | h, hxn⟩
        · exact Or.inl h
        · exact Or.inr ⟨h, hxn⟩

theorem mapRemove_mem (m : NodeIdMap) (e : Entity) (p : Entity × NodeID)
    (h : p ∈ mapRemove m e) : p ∈ m :=
  List.mem_of_mem_filter h

theorem mapRemove_snd_sublist (m : NodeIdMap) (e : Entity) :
    ((mapRemove m e).map Prod.snd).Sublist (m.map Prod.snd) :=
  (List.filter_sublist m).map Prod.snd

theorem find?_key (m : NodeIdMap) (e : Entity) (h : e ∈ m.map Prod.fst) :
    ∃ n, m.find? (fun p => decide (p.1 = e)) = some (e, n) := by
  induction m with
  | nil => simp at h
  | cons p t ih =>
    by_cases hp : p.1 = e
    · refine ⟨p.2, ?_⟩
      rw [List.find?_cons_of_pos _ (by simp [hp])]
      rw [show p = (e, p.2) from by rw [← hp]]
    · simp only [List.map_cons, List.mem_cons] at h
      rcases h with h | h
      · exact absurd h.symm hp
      · obtain ⟨n, hn⟩ := ih h
        exact ⟨n, by rw [List.find?_cons_of_neg _ (by simp [hp]), hn]⟩

theorem mapLookup_eq_some (m : NodeIdMap) (e : Entity) (h : e ∈ m.map Prod.fst) :
    ∃ n, mapLookup m e = some n ∧ (e, n) ∈ m := by
  obtain ⟨n, hn⟩ := find?_key m e h
  exact ⟨n, by simp [mapLookup, hn], List.mem_of_find?_eq_some hn⟩

theorem mapLookup_mem (m : NodeIdMap) (e : Entity) (n : NodeID)
    (h : mapLookup m e = some n) : (e, n) ∈ m := by
  simp only [mapLookup, Option.map_eq_some'] at h
  obtain ⟨q, hq, hn⟩ := h
  have h1 := List.find?_some hq
  simp only [decide_eq_true_eq] at h1
  have h2 := List.mem_of_find?_eq_some hq
  have hqe : q = (e, n) := by
    rw [← h1, ← hn]
  exact hqe ▸ h2

theorem nodes_filter_fst (l : List (NodeID × Nat × Nat)) (n : NodeID) :
    (l.filter (fun p => decide (p.1 ≠ n))).map Prod.fst
      = (l.map Prod.fst).filter (fun x => decide (x ≠ n)) := by
  induction l with
  | nil => rfl
  | cons p t ih =>
    by_cases hp : p.1 = n <;> simp [List.filter_cons, hp] <;> simpa using ih

theorem find?_fst_eq_of_mem (l : List (NodeID × Nat × Nat)) (p : NodeID × Nat × Nat)
    (hnd : (l.map Prod.fst).Nodup) (hp : p ∈ l) :
    l.find? (fun q => decide (q.1 = p.1)) = some p := by
  induction l with
  | nil => simp at hp
  | cons a t ih =>
    simp only [List.map_cons, List.nodup_cons] at hnd
    rcases List.mem_cons.mp hp with h | h
    · subst h
      rw [List.find?_cons_of_pos _ (by simp)]
    · have hane : a.1 ≠ p.1 := fun hc => hnd.1 (hc ▸ List.mem_map.mpr ⟨p, h, rfl⟩)
      rw [List.find?_cons_of_neg _ (by simp [hane]), ih hnd.2 h]

theorem gained_step (b : Beep) (s : BridgeState) (cur : List Entity) (e : Entity)
    (inv : BridgeInv s cur) (he : e ∉ cur) :
    ∃ s2, onAddNodeApply (beepImpl b) e s = some s2 ∧ BridgeInv s2 (e :: cur) := by
  have hcreate := beepCreateNode_eval b s.graph inv.idsLt inv.outIdZero inv.outNode
  have hekeys : e ∉ s.map.map Prod.fst := fun hc => he ((inv.keysCur e).mp hc)
  have hout_mem : (0, 2, 0) ∈ s.graph.nodes := List.mem_of_find?_eq_some inv.outNode
  have h0_ids : (0 : NodeID) ∈ s.graph.nodeIds := List.mem_map.mpr ⟨(0, 2, 0), hout_mem, rfl⟩
  have hpos : 1 ≤ s.graph.nextId := inv.idsLt 0 h0_ids
  have hfresh_vals : s.graph.nextId ∉ s.map.map Prod.snd := fun hc =>
    Nat.lt_irrefl _ (inv.idsLt _ ((inv.nodeSet _).mpr (Or.inr hc)))
  have hfresh_ids : s.graph.nextId ∉ s.graph.nodeIds := fun hc =>
    Nat.lt_irrefl _ (inv.idsLt _ hc)
  refine ⟨{ map := s.map ++ [(e, s.graph.nextId)]
            graph := { nodes := s.graph.nodes ++ [(s.graph.nextId, 0, 1)]
                       edges := s.graph.edges ++
                         [(s.graph.nextId, 0, 0, 0), (s.graph.nextId, 0, 0, 1)]
                       graphOutId := 0, nextId := s.graph.nextId + 1 } }, ?_, ?_⟩
  · simp [onAddNodeApply, beepImpl, hcreate, mapInsert_of_not_mem s.map e _ hekeys]
  · refine ⟨?_, ?_, ?_, ?_, ?_, ?_, ?_, ?_, rfl, ?_, ?_⟩
    · simp only [List.map_append, List.map_cons, List.map_nil]
      rw [List.nodup_append]
      exact ⟨inv.keysNodup, List.nodup_singleton _, fun x hx hx2 => by
        rw [List.mem_singleton] at hx2
        exact hekeys (hx2 ▸ hx)⟩
    · exact List.nodup_cons.mpr ⟨he, inv.curNodup⟩
    · intro x
      have h := inv.keysCur x
      simp only [List.map_append, List.map_cons, List.map_nil, List.mem_append,
        List.mem_singleton, List.mem_cons]
      rw [h]
      tauto
    · simp only [List.length_append, List.length_cons, List.length_nil]
      rw [inv.sizeEq]
    · simp only [List.map_append, List.map_cons, List.map_nil]
      rw [List.nodup_append]
      exact ⟨inv.valsNodup, List.nodup_singleton _, fun x hx hx2 => by
        rw [List.mem_singleton] at hx2
        exact hfresh_vals (hx2 ▸ hx)⟩
    · intro p hp
      rcases List.mem_append.mp hp with h | h
      · exact inv.valsPos p h
      · rw [List.mem_singleton] at h
        subst h
        exact hpos
    · intro id hid2
      simp only [Graph.nodeIds, List.map_append, List.map_cons, List.map_nil,
        List.mem_append, List.mem_singleton] at hid2
      rcases hid2 with h | h
      · exact Nat.lt_succ_of_lt (inv.idsLt id h)
      · subst h
        exact Nat.lt_succ_self _
    · simp only [Graph.nodeIds, List.map_append, List.map_cons, List.map_nil]
      rw [List.nodup_append]
      exact ⟨inv.idsNodup, List.nodup_singleton _, fun x hx hx2 => by
        rw [List.mem_singleton] at hx2
        exact hfresh_ids (hx2 ▸ hx)⟩
    · exact find?_append_of_some _ _ _ _ inv.outNode
    · intro id
      have h := inv.nodeSet id
      simp only [Graph.nodeIds, List.map_append, List.map_cons, List.map_nil,
        List.mem_append, List.mem_singleton] at h ⊢
      rw [h]
      tauto

theorem lost_step (b : Beep) (s : BridgeState) (cur : List Entity) (e : Entity)
    (inv : BridgeInv s cur) (he : e ∈ cur) :
    ∃ s2, onRemoveNodeApply (beepImpl b) e s = some s2 ∧ BridgeInv s2 (cur.erase e) := by
  have hekeys : e ∈ s.map.map Prod.fst := (inv.keysCur e).mpr he
  obtain ⟨n, hlook, hmem⟩ := mapLookup_eq_some s.map e hekeys
  have hn_vals : n ∈ s.map.map Prod.snd := List.mem_map.mpr ⟨(e, n), hmem, rfl⟩
  have hn_ids : n ∈ s.graph.nodeIds := (inv.nodeSet n).mpr (Or.inr hn_vals)
  have hn_pos : 1 ≤ n := inv.valsPos (e, n) hmem
  have hout_mem : (0, 2, 0) ∈ s.graph.nodes := List.mem_of_find?_eq_some inv.outNode
  have hremove : s.graph.removeNode n = Except.ok
      { nodes := s.graph.nodes.filter (fun p => decide (p.1 ≠ n))
        edges := s.graph.edges.filter (fun ed => decide (ed.1 ≠ n) && decide (ed.2.2.1 ≠ n))
        graphOutId := s.graph.graphOutId, nextId := s.graph.nextId } := by
    simp [Graph.removeNode, hn_ids]
  refine ⟨{ map := mapRemove s.map e
            graph := { nodes := s.graph.nodes.filter (fun p => decide (p.1 ≠ n))
                       edges := s.graph.edges.filter
                         (fun ed => decide (ed.1 ≠ n) && decide (ed.2.2.1 ≠ n))
                       graphOutId := s.graph.graphOutId, nextId := s.graph.nextId } }, ?_, ?_⟩
  · simp [onRemoveNodeApply, beepImpl, hlook, defaultRemoveNode, hremove, Except.toOption]
  · refine ⟨?_, ?_, ?_, ?_, ?_, ?_, ?_, ?_, inv.outIdZero, ?_, ?_⟩
    · rw [mapRemove_fst]
      exact inv.keysNodup.filter _
    · exact inv.curNodup.erase e
    · intro x
      rw [mapRemove_fst, List.mem_filter]
      simp only [decide_eq_true_eq]
      rw [inv.keysCur x, inv.curNodup.mem_erase_iff]
      tauto
    · show (mapRemove s.map e).length = (cur.erase e).length
      have h1 := mapRemove_length s.map e inv.keysNodup hekeys
      have h2 : (cur.erase e).length = cur.length - 1 := List.length_erase_of_mem he
      have h3 : 0 < cur.length := List.length_pos_of_mem he
      have h4 := inv.sizeEq
      omega
    · exact (mapRemove_snd_sublist s.map e).nodup inv.valsNodup
    · exact fun p hp => inv.valsPos p (mapRemove_mem s.map e p hp)
    · intro id hid2
      have hmm : id ∈ s.graph.nodeIds := by
        simp only [Graph.nodeIds] at hid2
        rw [nodes_filter_fst] at hid2
        exact List.mem_of_mem_filter hid2
      exact inv.idsLt id hmm
    · simp only [Graph.nodeIds]
      rw [nodes_filter_fst]
      exact inv.idsNodup.filter _
    · have hmem2 : (0, 2, 0) ∈ s.graph.nodes.filter (fun p => decide (p.1 ≠ n)) := by
        rw [List.mem_filter]
        exact ⟨hout_mem, by
          simp only [decide_eq_true_eq]
          exact Nat.ne_of_lt hn_pos⟩
      have hnodup2 : ((s.graph.nodes.filter (fun p => decide (p.1 ≠ n))).map Prod.fst).Nodup := by
        rw [nodes_filter_fst]
        exact inv.idsNodup.filter _
      exact find?_fst_eq_of_mem _ (0, 2, 0) hnodup2 hmem2
    · intro id
      have hvals := mapRemove_snd_mem s.map e n id inv.keysNodup inv.valsNodup hmem
      have hset := inv.nodeSet id
      simp only [Graph.nodeIds] at hset ⊢
      rw [nodes_filter_fst, List.mem_filter]
      simp only [decide_eq_true_eq]
      rw [hvals]
      constructor
      · rintro ⟨hin, hne⟩
        rcases hset.mp hin with h0 | hv
        · exact Or.inl h0
        · exact Or.inr ⟨hv, hne⟩
      · rintro (h0 | ⟨hv, hne⟩)
        · subst h0
          exact ⟨hset.mpr (Or.inl rfl), Nat.ne_of_lt hn_pos⟩
        · exact ⟨hset.mpr (Or.inr hv), hne⟩

theorem processSignals_inv (b : Beep) (sigs : List Signal) :
    ∀ (s : BridgeState) (cur : List Entity), BridgeInv s cur → wf sigs cur = true →
      ∃ s2, processSignals (beepImpl b) s sigs = some s2 ∧
        BridgeInv s2 (gainedAfter sigs cur) := by
  induction sigs with
  | nil =>
    intro s cur inv _
    exact ⟨s, rfl, inv⟩
  | cons sig rest ih =>
    intro s cur inv hwf
    cases sig with
    | gained e =>
      simp only [wf, Bool.and_eq_true, Bool.not_eq_true', decide_eq_false_iff_not] at hwf
      obtain ⟨s1, hs1, inv1⟩ := gained_step b s cur e inv hwf.1
      obtain ⟨s2, hs2, inv2⟩ := ih s1 (e :: cur) inv1 hwf.2
      exact ⟨s2, by simpa [processSignals, processSignal, hs1] using hs2, inv2⟩
    | lost e =>
      simp only [wf, Bool.and_eq_true, decide_eq_true_eq] at hwf
      obtain ⟨s1, hs1, inv1⟩ := lost_step b s cur e inv hwf.1
      obtain ⟨s2, hs2, inv2⟩ := ih s1 (cur.erase e) inv1 hwf.2
      exact ⟨s2, by simpa [processSignals, processSignal, hs1] using hs2, inv2⟩

theorem initBridgeInv : BridgeInv initBridgeState [] := by
  constructor <;>
    simp [initBridgeState, initGraph, Graph.nodeIds, Graph.findNode, List.find?]

/-- C1: after any well-formed sequence of gained/lost signals, the NodeIds
map has unique keys (at most one live mapping per entity), every recorded
Node Identifier names a node currently in the graph, a node is in the graph
exactly when it is the graph output node or a recorded mapping, and the
map's size equals the number of currently gained entities. -/
theorem nodeIds_map_invariant (b : Beep) (sigs : List Signal) (hwf : wf sigs [] = true) :
    ∃ s, processSignals (beepImpl b) initBridgeState sigs = some s ∧
      (s.map.map Prod.fst).Nodup ∧
      (∀ e n, mapLookup s.map e = some n → n ∈ s.graph.nodeIds) ∧
      (∀ id, id ∈ s.graph.nodeIds ↔
        id = initGraph.graphOutId ∨ id ∈ s.map.map Prod.snd) ∧
      s.map.length = (gainedAfter sigs []).length := by
  obtain ⟨s, hs, inv⟩ := processSignals_inv b sigs initBridgeState [] initBridgeInv hwf
  refine ⟨s, hs, inv.keysNodup, ?_, ?_, inv.sizeEq⟩
  · intro e n hlook
    have hmem := mapLookup_mem s.map e n hlook
    exact (inv.nodeSet n).mpr (Or.inr (List.mem_map.mpr ⟨(e, n), hmem, rfl⟩))
  · exact inv.nodeSet

theorem nodeIds_map_invariant_witness :
    wf [Signal.gained 5, Signal.gained 7, Signal.lost 5, Signal.gained 2] [] = true ∧
    (∃ s, processSignals (beepImpl { amplitude := 0, frequency := 440 }) initBridgeState
        [Signal.gained 5, Signal.gained 7, Signal.lost 5, Signal.gained 2] = some s ∧
      (s.map.map Prod.fst).Nodup ∧
      (∀ e n, mapLookup s.map e = some n → n ∈ s.graph.nodeIds) ∧
      (∀ id, id ∈ s.graph.nodeIds ↔
        id = initGraph.graphOutId ∨ id ∈ s.map.map Prod.snd) ∧
      s.map.length =
        (gainedAfter [Signal.gained 5, Signal.gained 7, Signal.lost 5, Signal.gained 2]
          []).length) :=
  ⟨by decide,
   nodeIds_map_invariant { amplitude := 0, frequency := 440 }
     [Signal.gained 5, Signal.gained 7, Signal.lost 5, Signal.gained 2] (by decide)⟩

end BevyAudio
